import Mathlib

/-!
Verification of the image-update-automation reconciler
(`controllers/imageupdateautomation_controller.go`).

The controller code is shallowly embedded as executable Lean functions.
External effects (Kubernetes reads and status patches, filesystem and git
operations, template handling) are modelled by an `Env` record holding the
outcome of each external call; `reconcile` then deterministically replays the
control flow of `Reconcile`, producing an `Outcome`: either a Go panic or a
normal return carrying the controller result, the returned error, the final
in-memory status, and the ordered trace of externally visible actions
(events, patches, git and network operations, telemetry).
-/

namespace ImageAutomation

/-- Decidable equality for `Except`, used to evaluate embedded call results
on concrete inputs. -/
instance {ε α : Type} [DecidableEq ε] [DecidableEq α] : DecidableEq (Except ε α) := fun x y =>
  match x, y with
  | .ok a, .ok b =>
    if h : a = b then isTrue (by rw [h]) else isFalse (fun he => by cases he; exact h rfl)
  | .error a, .error b =>
    if h : a = b then isTrue (by rw [h]) else isFalse (fun he => by cases he; exact h rfl)
  | .ok _, .error _ => isFalse (fun he => by cases he)
  | .error _, .ok _ => isFalse (fun he => by cases he)

/-- Modelled from the spec: a git reference as carried by a GitRepository
checkout spec (only the branch is read by the reconciler). -/
structure GitRepositoryRef where
  branch : String := ""
  tag : String := ""
  semver : String := ""
  commitHash : String := ""
deriving DecidableEq

/-- Modelled from the spec: `.spec.git.checkout` of an automation object. -/
structure CheckoutSpec where
  reference : GitRepositoryRef
deriving DecidableEq

/-- Modelled from the spec: `.spec.git.push` of an automation object. -/
structure PushSpec where
  branch : String
deriving DecidableEq

/-- Modelled from the spec: a reference to a named secret. -/
structure SecretRef where
  name : String
deriving DecidableEq

/-- Modelled from the spec: the signing-key reference of the commit spec. -/
structure SigningKey where
  secretRef : SecretRef
deriving DecidableEq

/-- Modelled from the spec: commit author identity. -/
structure CommitUser where
  name : String := ""
  email : String := ""
deriving DecidableEq

/-- Modelled from the spec: `.spec.git.commit` of an automation object. -/
structure CommitSpec where
  author : CommitUser := {}
  signingKey : Option SigningKey := none
  messageTemplate : String := ""
deriving DecidableEq

/-- Modelled from the spec: `.spec.git` of an automation object.  `checkout`
and `push` are nilable pointers in the source. -/
structure GitSpec where
  checkout : Option CheckoutSpec := none
  commit : CommitSpec := {}
  push : Option PushSpec := none
deriving DecidableEq

/-- Modelled from the spec: `.spec.update`; `strategy` is a string enum and
`path` a subpath under the repository root. -/
structure UpdateStrategy where
  strategy : String := ""
  path : String := ""
deriving DecidableEq

/-- Modelled from the spec: `.spec.sourceRef` (kind + name). -/
structure SourceRef where
  kind : String
  name : String := ""
deriving DecidableEq

/-- Modelled from the spec: the spec of an ImageUpdateAutomation object.
`gitSpec` and `update` are nilable pointers in the source; `interval` is in
nanoseconds, mirroring Go `time.Duration`. -/
structure AutoSpec where
  sourceRef : SourceRef
  gitSpec : Option GitSpec := none
  update : Option UpdateStrategy := none
  suspend : Bool := false
  interval : Nat := 0
deriving DecidableEq

/-- Modelled from the spec: a status condition (readiness).  `status` is
`true` for ConditionTrue and `false` for ConditionFalse. -/
structure Condition where
  status : Bool
  reason : String
  message : String
deriving DecidableEq

/-- Modelled from the spec: the status of an ImageUpdateAutomation object.
Times are abstract instants (`Nat`). -/
structure AutoStatus where
  lastHandledReconcileRequest : String := ""
  lastPushCommit : String := ""
  lastPushTime : Option Nat := none
  lastAutomationRunTime : Option Nat := none
  ready : Option Condition := none
deriving DecidableEq

/-- Modelled from the spec: an ImageUpdateAutomation object as fetched from
the cluster.  `annotationToken` is the value of the reconcile-request
annotation when present (`meta.ReconcileAnnotationValue`). -/
structure Auto where
  spec : AutoSpec
  status : AutoStatus := {}
  annotationToken : Option String := none
deriving DecidableEq

/-- Modelled from the spec: the spec of a referenced GitRepository source. -/
structure GitRepoSpec where
  url : String := ""
  reference : Option GitRepositoryRef := none
  gitImplementation : String := ""
  secretRef : Option SecretRef := none
deriving DecidableEq

/-- Modelled from the spec: a GitRepository source object. -/
structure GitRepository where
  spec : GitRepoSpec := {}
deriving DecidableEq

/-- Go errors, with the two sentinel errors of the controller file
(`errNoChanges`, `errRemoteBranchMissing`) as distinguished values so that
pointer-identity comparisons in the source translate to constructor tests. -/
inductive GoErr
  | noChanges
  | remoteBranchMissing
  | str (s : String)
deriving DecidableEq

/-- Error text, mirroring `Error()` on each error value. -/
def GoErr.message : GoErr → String
  | .noChanges => "no changes made to working directory"
  | .remoteBranchMissing => "remote branch missing"
  | .str s => s

/-- Outcome of a Kubernetes `Get`: not-found, another error, or the object. -/
inductive K8sGet (α : Type)
  | notFound
  | errOther (e : String)
  | found (v : α)
deriving DecidableEq

/-- Modelled from the spec: a secret payload (`map[string][]byte`). -/
structure Secret where
  data : List (String × String)
deriving DecidableEq

/-- Lookup of a data key in a secret. -/
def Secret.get (s : Secret) (k : String) : Option String :=
  (s.data.find? (fun p => p.1 = k)).map (fun p => p.2)

/-- Result of `os.Lstat` on a file: whether the mode has the symlink bit. -/
structure FileInfo where
  symlink : Bool
deriving DecidableEq

/-- Result of `os.Stat` on a file, classified the way the source reads it:
success, an `os.IsNotExist` error, or any other error. -/
inductive StatOutcome
  | ok
  | notExist
  | errOther
deriving DecidableEq

/-- OpenPGP entity (opaque). -/
structure Entity where
  keyId : Nat
deriving DecidableEq

/-- Externally visible actions of one reconciliation run, in order. -/
inductive Action
  | getAutomation
  | recordSuspension
  | recordReadiness
  | recordDuration
  | patchStatus
  | event (severity : String) (msg : String)
  | tempDirCreate
  | removeAllTemp
  | authResolve
  | clone
  | fetch (branch : String)
  | switchBranch (branch : String)
  | listPolicies
  | applyUpdates
  | getSigningSecret
  | stageFile (f : String)
  | commit
  | push (branch : String)
deriving DecidableEq

/-- `ctrl.Result`: `requeueAfter` is in nanoseconds, `0` meaning unset. -/
structure CtrlResult where
  requeue : Bool := false
  requeueAfter : Nat := 0
deriving DecidableEq

/-- Result of a whole run: a Go panic, or a normal return with the action
trace, controller result, returned error and final in-memory status. -/
inductive Outcome
  | panicked (trace : List Action)
  | ret (trace : List Action) (res : CtrlResult) (err : Option GoErr) (finalStatus : AutoStatus)
deriving DecidableEq

/-- The action trace of an outcome. -/
def Outcome.traceOf : Outcome → List Action
  | .panicked t => t
  | .ret t _ _ _ => t

/-- Whether the run ended in a panic. -/
def Outcome.isPanic : Outcome → Bool
  | .panicked _ => true
  | .ret _ _ _ _ => false

/-- The returned error of a normally returning run (`none` for a panic). -/
def Outcome.retErr : Outcome → Option GoErr
  | .panicked _ => none
  | .ret _ _ e _ => e

/-- Environment: the outcome of every external call a run can make.
Function-typed fields are consulted at the argument the code would pass. -/
structure Env where
  getAuto : K8sGet Auto
  metricsEnabled : Bool
  getReferenceOk : Bool
  patchResult : Nat → Option GoErr
  getOrigin : K8sGet GitRepository
  tempDir : Except GoErr String
  repoAccess : Except GoErr Unit
  clone : Except GoErr Unit
  fetchResult : Option GoErr
  switchBranch : Except GoErr Unit
  secureJoin : Except GoErr String
  listPolicies : Except GoErr Unit
  updateResult : Except GoErr Unit
  signingSecret : K8sGet Secret
  parseKeyRing : String → Except GoErr (List Entity)
  templateParse : Except GoErr Unit
  templateExec : Except GoErr Unit
  worktree : Except GoErr Unit
  worktreeStatus : Except GoErr (List String)
  lstat : String → Except GoErr FileInfo
  stat : String → StatOutcome
  commitResult : Except GoErr String
  push : Option GoErr
  now : Nat

/- Constants of the controller file. -/

/-- `imagev1.UpdateStrategySetters` (the only supported strategy value). -/
def updateStrategySetters : String := "Setters"

/-- `signingSecretKey`: the well-known data key of a signing secret. -/
def signingSecretKey : String := "git.asc"

/-- Modelled from the spec: `meta.ReconciliationFailedReason`. -/
def reconciliationFailedReason : String := "ReconciliationFailed"

/-- Modelled from the spec: `meta.ReconciliationSucceededReason`. -/
def reconciliationSucceededReason : String := "ReconciliationSucceeded"

/-- Modelled from the spec: `imagev1.GitNotAvailableReason`. -/
def gitNotAvailableReason : String := "GitNotAvailable"

/-- Modelled from the spec: `imagev1.NoStrategyReason` (the no-strategy-given
terminal reason). -/
def noStrategyReason : String := "NoStrategy"

/-- `events.EventSeverityError`. -/
def eventSeverityError : String := "error"

/-- `events.EventSeverityInfo`. -/
def eventSeverityInfo : String := "info"

/-- One nanosecond-denominated second (`time.Second`). -/
def nanosPerSecond : Nat := 1000000000

/-- `intervalOrDefault`: the spec interval, or one second if smaller. -/
def intervalOrDefault (auto : Auto) : Nat :=
  if auto.spec.interval < nanosPerSecond then nanosPerSecond else auto.spec.interval

/- Push-error normalizers (`gogitPushError`, `libgit2PushError`).  Errors are
represented by their message text; `none` is a nil error. -/

/-- Whether a character is Unicode white space in the sense of Go
`unicode.IsSpace` (the White_Space property). -/
def goIsSpace (c : Char) : Bool :=
  let n := c.toNat
  (9 ≤ n && n ≤ 13) || n = 32 || n = 133 || n = 160 || n = 5760 ||
  (8192 ≤ n && n ≤ 8202) || n = 8232 || n = 8233 || n = 8239 || n = 8287 || n = 12288

/-- Go `strings.TrimSpace`: drop leading and trailing white space. -/
def goTrimSpace (s : String) : String :=
  String.mk (((s.data.dropWhile goIsSpace).reverse.dropWhile goIsSpace).reverse)

/-- Go `strings.TrimPrefix p s` for an ASCII `p`: remove one leading
occurrence of `p` when present. -/
def goStripPre (p s : String) : String :=
  if s.take p.length = p then s.drop p.length else s

/-- Membership in the cutset `" \t="` used by `libgit2PushError`. -/
def inFenceCutset (c : Char) : Bool :=
  c = ' ' || c = '\t' || c = '='

/-- Go `strings.Trim m " \t="`: drop leading and trailing cutset characters. -/
def goTrimFence (s : String) : String :=
  String.mk (((s.data.dropWhile inFenceCutset).reverse.dropWhile inFenceCutset).reverse)

/-- The fixed diagnostic substituted by `gogitPushError`. -/
def gogitPushDiagnostic : String := "push rejected; check git secret has write access"

/-- `gogitPushError`: if the trimmed error text is exactly
`"unknown error: remote:"`, replace it with the fixed diagnostic; a nil error
and every other error pass through unchanged. -/
def gogitPushError (err : Option String) : Option String :=
  match err with
  | none => none
  | some msg =>
    if goTrimSpace msg = "unknown error: remote:" then some gogitPushDiagnostic
    else some msg

/-- One line of `libgit2PushError`'s loop: strip the `"remote:"` marker and
surrounding white space / fencing from a line. -/
def libgit2CleanLine (line : String) : String :=
  goTrimFence (goStripPre "remote:" line)

/-- Helper of `splitLines`: split the remaining characters at newlines,
`cur` holding the reversed current segment. -/
def splitLinesAux : List Char → List Char → List String
  | [], cur => [String.mk cur.reverse]
  | c :: rest, cur =>
    if c = '\n' then String.mk cur.reverse :: splitLinesAux rest []
    else splitLinesAux rest (c :: cur)

/-- Go `strings.Split msg "\n"`: the newline-separated segments of a string
(always at least one, possibly empty, segment). -/
def splitLines (s : String) : List String := splitLinesAux s.data []

/-- One step of `libgit2PushError`'s builder loop: append a nonempty cleaned
line, preceded by a space once something has already been appended. -/
def rebuildStep (acc : String × Bool) (line : String) : String × Bool :=
  let m := libgit2CleanLine line
  if m ≠ "" then (acc.1 ++ (if acc.2 then " " else "") ++ m, true) else acc

/-- The builder loop of `libgit2PushError`: starting from `"remote: "`,
append each nonempty cleaned line, separated by single spaces. -/
def libgit2Rebuild (lines : List String) : String :=
  (lines.foldl rebuildStep ("remote: ", false)).1

/-- `libgit2PushError`: a nil or single-line error is returned unchanged; a
multi-line error message is rebuilt from its nonempty cleaned lines. -/
def libgit2PushError (err : Option String) : Option String :=
  match err with
  | none => none
  | some msg =>
    let lines := splitLines msg
    if lines.length = 1 then some msg
    else some (libgit2Rebuild lines)

/- `commitChangedManifests` and `getSigningEntity`. -/

/-- `filepath.Join absRepoPath file` as used for the lstat/stat probes. -/
def joinPath (root f : String) : String := root ++ "/" ++ f

/-- The staging loop of `commitChangedManifests`: for every file reported by
the work-tree status, lstat it (an lstat error aborts the loop with an
error); skip it when it is a symlink whose target does not exist per stat;
otherwise stage it and mark the tree changed.  Returns the staging actions
performed, the `changed` flag, and the aborting error if any. -/
def stageLoop (env : Env) (root : String) : List String → List Action × Bool × Option GoErr
  | [] => ([], false, none)
  | f :: rest =>
    match env.lstat (joinPath root f) with
    | .error e =>
      ([], false, some (.str ("checking if " ++ f ++ " is a symlink: " ++ e.message)))
    | .ok info =>
      if info.symlink ∧ env.stat (joinPath root f) = .notExist then
        stageLoop env root rest
      else
        let r := stageLoop env root rest
        (.stageFile f :: r.1, true, r.2.2)

/-- Whether a reported file is a broken symlink in the sense of the source:
lstat shows the symlink mode bit and stat reports not-exist. -/
def brokenSymlink (env : Env) (root f : String) : Bool :=
  match env.lstat (joinPath root f) with
  | .error _ => false
  | .ok info => info.symlink && decide (env.stat (joinPath root f) = .notExist)

/-- `commitChangedManifests`: obtain the work tree and its status, run the
staging loop, return `errNoChanges` when nothing was staged, and otherwise
commit.  Returns the performed actions and the revision or error. -/
def commitChangedManifests (env : Env) (_ent : Option Entity) (absRepoPath : String) :
    List Action × Except GoErr String :=
  match env.worktree with
  | .error e => ([], .error e)
  | .ok _ =>
    match env.worktreeStatus with
    | .error e => ([], .error e)
    | .ok files =>
      let r := stageLoop env absRepoPath files
      match r.2.2 with
      | some e => (r.1, .error e)
      | none =>
        if ¬ r.2.1 then (r.1, .error .noChanges)
        else
          match env.commitResult with
          | .error e => (r.1 ++ [.commit], .error e)
          | .ok rev => (r.1 ++ [.commit], .ok rev)

/-- Result of `getSigningEntity`: an error, a Go panic, or an entity. -/
inductive SignResult
  | err (e : GoErr)
  | panicked
  | ok (e : Entity)
deriving DecidableEq

/-- `getSigningEntity`: fetch the signing secret (any get failure is wrapped
into a could-not-find error), read the well-known `git.asc` key, parse the
armored key ring, reject more than one entity, and return `entities[0]` —
which in Go panics with an index-out-of-range when the list is empty. -/
def getSigningEntity (env : Env) (secretName : String) : SignResult :=
  match env.signingSecret with
  | .notFound => .err (.str ("could not find signing key secret " ++ secretName))
  | .errOther e => .err (.str ("could not find signing key secret " ++ secretName ++ ": " ++ e))
  | .found secret =>
    match secret.get signingSecretKey with
    | none => .err (.str ("signing key secret " ++ secretName ++ " does not contain a git.asc key"))
    | some data =>
      match env.parseKeyRing data with
      | .error e =>
        .err (.str ("could not read signing key from secret " ++ secretName ++ ": " ++ e.message))
      | .ok entities =>
        if entities.length > 1 then
          .err (.str ("multiple entities read from secret " ++ secretName ++
            ", could not determine which signing key to use"))
        else
          match entities with
          | [] => .panicked
          | e :: _ => .ok e

/- The reconciliation run.  `RunState` threads the action trace, the stack of
deferred calls (run last-in-first-out on every exit, including panics, as Go
does), the in-memory status, and the number of status patches performed so
far (used to consult `Env.patchResult`). -/

/-- In-flight state of a run. -/
structure RunState where
  trace : List Action
  defers : List Action
  status : AutoStatus
  pc : Nat

/-- Append an action to the trace. -/
def RunState.act (st : RunState) (a : Action) : RunState :=
  { st with trace := st.trace ++ [a] }

/-- Append several actions to the trace. -/
def RunState.acts (st : RunState) (as : List Action) : RunState :=
  { st with trace := st.trace ++ as }

/-- Register a deferred call (runs before previously registered ones). -/
def RunState.pushDefer (st : RunState) (a : Action) : RunState :=
  { st with defers := a :: st.defers }

/-- Update the in-memory status. -/
def RunState.setStatus (st : RunState) (s : AutoStatus) : RunState :=
  { st with status := s }

/-- The full trace at exit: performed actions followed by deferred calls. -/
def RunState.finishTrace (st : RunState) : List Action :=
  st.trace ++ st.defers

/-- A normal return. -/
def exitRet (st : RunState) (res : CtrlResult) (err : Option GoErr) : Outcome :=
  .ret st.finishTrace res err st.status

/-- A Go panic (deferred calls still run). -/
def exitPanic (st : RunState) : Outcome :=
  .panicked st.finishTrace

/-- Perform one `patchStatus` call, yielding its error and the new state. -/
def doPatch (env : Env) (st : RunState) : Option GoErr × RunState :=
  (env.patchResult st.pc, { st with trace := st.trace ++ [.patchStatus], pc := st.pc + 1 })

/-- The side effects of the `failWithError` helper: emit an error event, set
readiness False with reason ReconciliationFailed and the error text, and
patch the status (a patch failure is only logged). -/
def failWithErrorState (env : Env) (st : RunState) (err : GoErr) : RunState :=
  let st := st.act (.event eventSeverityError err.message)
  let st := st.setStatus
    { st.status with ready := some ⟨false, reconciliationFailedReason, err.message⟩ }
  (doPatch env st).2

/-- `failWithError`: the effects above, then return (Requeue, the error). -/
def failWithError (env : Env) (st : RunState) (err : GoErr) : Outcome :=
  exitRet (failWithErrorState env st err) { requeue := true } (some err)

/-- The checkout reference used by the run: the git spec's checkout reference
when present, else the origin GitRepository's reference (possibly absent). -/
def refOf (gitSpec : GitSpec) (origin : GitRepository) : Option GitRepositoryRef :=
  match gitSpec.checkout with
  | some co => some co.reference
  | none => origin.spec.reference

/-- The message of the push-branch validation failure. -/
def pushBranchErrMsg : String :=
  "Push branch not given explicitly, and cannot be inferred from .spec.git.checkout.ref or GitRepository .spec.ref"

/-- The "no updates made" status message: when a last push commit is
recorded, the source appends `lastCommit[:7]` and the formatted push time —
Go panics (`none` here) when the recorded commit is shorter than seven
bytes, or when a commit is recorded without a push time. -/
def noUpdatesMessage (status : AutoStatus) : Option String :=
  if status.lastPushCommit = "" then some "no updates made"
  else if status.lastPushCommit.length < 7 then none
  else
    match status.lastPushTime with
    | none => none
    | some t =>
      some ("no updates made; last commit " ++ status.lastPushCommit.take 7 ++
        " at " ++ toString t)

/-- Commit-and-push phase, after the signing entity has been resolved:
parse and execute the message template, commit the changed manifests; on
`errNoChanges` emit the informational event and build the no-updates status
message (panicking, as Go does, when a recorded last push commit is shorter
than seven characters or has no recorded time); otherwise push and record
the pushed commit; finally set readiness True, patch and requeue after the
interval. -/
def reconcileCommitPhase2 (env : Env) (auto : Auto) (pushBranch tmp : String)
    (ent : Option Entity) (st : RunState) : Outcome :=
  match env.templateParse with
  | .error e =>
    failWithError env st (.str ("unable to create commit message template from spec: " ++ e.message))
  | .ok _ =>
    match env.templateExec with
    | .error e => failWithError env st (.str ("failed to run template from spec: " ++ e.message))
    | .ok _ =>
      let cm := commitChangedManifests env ent tmp
      let st := st.acts cm.1
      match cm.2 with
      | .error .noChanges =>
        let st := st.act (.event eventSeverityInfo "no updates made")
        match noUpdatesMessage st.status with
        | none => exitPanic st
        | some m => finalize st m
      | .error e => failWithError env st e
      | .ok rev =>
        let st := st.act (.push pushBranch)
        match env.push with
        | some e => failWithError env st e
        | none =>
          let st := st.act
            (.event eventSeverityInfo ("committed and pushed change " ++ rev ++ " to " ++ pushBranch))
          let st := st.setStatus
            { st.status with lastPushCommit := rev, lastPushTime := some env.now }
          finalize st ("committed and pushed " ++ rev ++ " to " ++ pushBranch)
where
  /-- Successful-run epilogue: record the run time, set readiness True with
  the status message, patch (a failure returns Requeue and the error),
  and requeue after the (defaulted) interval. -/
  finalize (st : RunState) (statusMessage : String) : Outcome :=
    let st := st.setStatus
      { st.status with
        lastAutomationRunTime := some env.now
        ready := some ⟨true, reconciliationSucceededReason, statusMessage⟩ }
    let p := doPatch env st
    match p.1 with
    | some e => exitRet p.2 { requeue := true } (some e)
    | none => exitRet p.2 { requeueAfter := intervalOrDefault auto } none

/-- Signing phase: when a signing key is referenced, resolve it — but, as in
the source, the returned error is assigned to `err` and never checked (it is
overwritten by the template-parsing step), so an error merely leaves the
entity nil and the run continues; only a panic inside `getSigningEntity`
aborts the run. -/
def reconcileCommitPhase (env : Env) (auto : Auto) (gitSpec : GitSpec)
    (pushBranch tmp : String) (st : RunState) : Outcome :=
  match gitSpec.commit.signingKey with
  | none => reconcileCommitPhase2 env auto pushBranch tmp none st
  | some sk =>
    let st := st.act .getSigningSecret
    match getSigningEntity env sk.secretRef.name with
    | .panicked => exitPanic st
    | .err _ => reconcileCommitPhase2 env auto pushBranch tmp none st
    | .ok e => reconcileCommitPhase2 env auto pushBranch tmp (some e) st

/-- Manifest-path and strategy phase.  The manifests path is computed by
reading `auto.Spec.Update.Path` — a nil `update` therefore panics here,
before the strategy switch performs its nil check.  The setters strategy
lists the namespace's image policies and applies the update; any other
strategy emits the informational event, sets readiness False with the
no-strategy reason and returns an empty result together with the status
patch's error. -/
def reconcileUpdatePhase (env : Env) (auto : Auto) (gitSpec : GitSpec)
    (pushBranch tmp : String) (st : RunState) : Outcome :=
  match auto.spec.update with
  | none => exitPanic st
  | some upd =>
    let step2 := fun (st : RunState) =>
      if upd.strategy = updateStrategySetters then
        let st := st.act .listPolicies
        match env.listPolicies with
        | .error e => failWithError env st e
        | .ok _ =>
          let st := st.act .applyUpdates
          match env.updateResult with
          | .error e => failWithError env st e
          | .ok _ => reconcileCommitPhase env auto gitSpec pushBranch tmp st
      else
        let st := st.act (.event eventSeverityInfo "no known update strategy in spec, failing trivially")
        let st := st.setStatus
          { st.status with ready := some ⟨false, noStrategyReason, "no known update strategy is given for object"⟩ }
        let p := doPatch env st
        exitRet p.2 {} p.1
    if upd.path ≠ "" then
      match env.secureJoin with
      | .error e => failWithError env st e
      | .ok _ => step2 st
    else step2 st

/-- Clone phase: create the temporary directory (deferring its removal),
resolve repository access, clone; when a push spec exists, fetch the push
branch (tolerating only the missing-remote-branch outcome) and switch to
it. -/
def reconcileClonePhase (env : Env) (auto : Auto) (gitSpec : GitSpec)
    (pushBranch : String) (st : RunState) : Outcome :=
  let st := st.act .tempDirCreate
  match env.tempDir with
  | .error e => failWithError env st e
  | .ok tmp =>
    let st := st.pushDefer .removeAllTemp
    let st := st.act .authResolve
    match env.repoAccess with
    | .error e => failWithError env st e
    | .ok _ =>
      let st := st.act .clone
      match env.clone with
      | .error e => failWithError env st e
      | .ok _ =>
        let afterSwitch := fun (st : RunState) =>
          let st := st.act (.switchBranch pushBranch)
          match env.switchBranch with
          | .error e => failWithError env st e
          | .ok _ => reconcileUpdatePhase env auto gitSpec pushBranch tmp st
        match gitSpec.push with
        | none => reconcileUpdatePhase env auto gitSpec pushBranch tmp st
        | some _ =>
          let st := st.act (.fetch pushBranch)
          match env.fetchResult with
          | some e =>
            if e = .remoteBranchMissing then afterSwitch st else failWithError env st e
          | none => afterSwitch st

/-- Push-branch resolution.  With a push spec, its branch is used.  Without
one, the code reads `ref.Branch`: a nil checkout reference panics; an empty
branch invokes `failWithError` — whose result, in the source, is discarded
without a `return`, so its side effects happen and the run continues with
the empty push branch. -/
def reconcileWithOrigin (env : Env) (auto : Auto) (gitSpec : GitSpec)
    (origin : GitRepository) (st : RunState) : Outcome :=
  match gitSpec.push with
  | some p => reconcileClonePhase env auto gitSpec p.branch st
  | none =>
    match refOf gitSpec origin with
    | none => exitPanic st
    | some r =>
      let st :=
        if r.branch = "" then failWithErrorState env st (.str pushBranchErrMsg) else st
      reconcileClonePhase env auto gitSpec r.branch st

/-- Source-resolution phase: only the GitRepository kind is supported; the
git spec must be present; a missing origin repository sets readiness False
with the git-not-available reason and exits cleanly; any other get error is
returned. -/
def reconcileMain (env : Env) (auto : Auto) (st : RunState) : Outcome :=
  if auto.spec.sourceRef.kind ≠ "GitRepository" then
    failWithError env st (.str ("source kind " ++ auto.spec.sourceRef.kind ++ " not supported"))
  else
    match auto.spec.gitSpec with
    | none => failWithError env st (.str "source kind GitRepository necessitates field .spec.git")
    | some gitSpec =>
      match env.getOrigin with
      | .notFound =>
        let st := st.setStatus
          { st.status with ready := some ⟨false, gitNotAvailableReason, "referenced git repository is missing"⟩ }
        let p := doPatch env st
        match p.1 with
        | some e => exitRet p.2 { requeue := true } (some e)
        | none => exitRet p.2 {} none
      | .errOther e => exitRet st {} (some (.str e))
      | .found origin => reconcileWithOrigin env auto gitSpec origin st

/-- The reconciliation run (`Reconcile`): get the automation object (a
missing object is a clean no-op); defer suspension telemetry; a suspended
spec exits neutrally; defer the readiness metric and, when a metrics
recorder exists, the duration metric (an object-reference failure there
returns the error); acknowledge a reconcile-request annotation by patching
the status; then resolve the source and proceed. -/
def reconcile (env : Env) : Outcome :=
  match env.getAuto with
  | .notFound => .ret [.getAutomation] {} none {}
  | .errOther e => .ret [.getAutomation] {} (some (.str e)) {}
  | .found auto =>
    let st : RunState :=
      { trace := [.getAutomation], defers := [.recordSuspension], status := auto.status, pc := 0 }
    if auto.spec.suspend then
      exitRet st {} none
    else
      let st := st.pushDefer .recordReadiness
      if env.metricsEnabled ∧ ¬ env.getReferenceOk then
        exitRet st {} (some (.str "failed to get object reference"))
      else
        let st := if env.metricsEnabled then st.pushDefer .recordDuration else st
        match auto.annotationToken with
        | none => reconcileMain env auto st
        | some token =>
          let st := st.setStatus { st.status with lastHandledReconcileRequest := token }
          let p := doPatch env st
          match p.1 with
          | some e => exitRet p.2 { requeue := true } (some e)
          | none => reconcileMain env auto p.2

/- Concrete objects used by witnesses and counterexamples. -/

/-- A git spec with push branch "flux-updates" and checkout branch "main". -/
def gsPushMain : GitSpec :=
  { checkout := some { reference := { branch := "main" } }
    push := some { branch := "flux-updates" } }

/-- A well-formed automation object using the setters strategy. -/
def autoSetters : Auto :=
  { spec :=
      { sourceRef := { kind := "GitRepository", name := "repo" }
        gitSpec := some gsPushMain
        update := some { strategy := "Setters" }
        interval := 120 * nanosPerSecond } }

/-- A baseline environment in which every external call succeeds and the
work tree reports a single changed regular file. -/
def baseEnv : Env :=
  { getAuto := .found autoSetters
    metricsEnabled := true
    getReferenceOk := true
    patchResult := fun _ => none
    getOrigin := .found { spec := { url := "https://example.com/repo.git" } }
    tempDir := .ok "/tmp/wd"
    repoAccess := .ok ()
    clone := .ok ()
    fetchResult := none
    switchBranch := .ok ()
    secureJoin := .ok "/tmp/wd"
    listPolicies := .ok ()
    updateResult := .ok ()
    signingSecret := .found { data := [(signingSecretKey, "ARMORED")] }
    parseKeyRing := fun _ => .ok [{ keyId := 7 }]
    templateParse := .ok ()
    templateExec := .ok ()
    worktree := .ok ()
    worktreeStatus := .ok ["app.yaml"]
    lstat := fun _ => .ok { symlink := false }
    stat := fun _ => .ok
    commitResult := .ok "0123456789abcdef0123456789abcdef01234567"
    push := none
    now := 1700000000 }

/- Derived notions used to state the claims. -/

/-- The readiness condition recorded at exit (`none` for a panic). -/
def Outcome.readyOf : Outcome → Option Condition
  | .panicked _ => none
  | .ret _ _ _ st => st.ready

/-- The final in-memory status of a normally returning run. -/
def Outcome.statusOf : Outcome → AutoStatus
  | .panicked _ => {}
  | .ret _ _ _ st => st

/-- The controller result of a normally returning run. -/
def Outcome.resOf : Outcome → CtrlResult
  | .panicked _ => {}
  | .ret _ res _ _ => res

/-- The push branch a valid run resolves: the push spec's branch when
present, else the checkout reference's branch when that is nonempty. -/
def resolvedPushBranch (gs : GitSpec) (origin : GitRepository) : Option String :=
  match gs.push with
  | some p => some p.branch
  | none =>
    match refOf gs origin with
    | none => none
    | some r => if r.branch = "" then none else some r.branch

/-- The git/network actions of a successful clone phase. -/
def cloneActs (gs : GitSpec) (b : String) : List Action :=
  [.tempDirCreate, .authResolve, .clone] ++
    (match gs.push with
     | some _ => [.fetch b, .switchBranch b]
     | none => [])

/-- The actions of the signing phase. -/
def sigActs (gs : GitSpec) : List Action :=
  match gs.commit.signingKey with
  | none => []
  | some _ => [.getSigningSecret]

/-- Whether the signing phase of a run cannot panic: no signing key is
referenced, or resolving it does not panic. -/
def signingSafe (env : Env) (gs : GitSpec) : Bool :=
  match gs.commit.signingKey with
  | none => true
  | some sk => getSigningEntity env sk.secretRef.name ≠ .panicked

/-- The signing entity a non-panicking run carries into the commit step
(`none` both when no key is referenced and when resolution failed, since the
code ignores the resolution error). -/
def signingEntityOf (env : Env) (gs : GitSpec) : Option Entity :=
  match gs.commit.signingKey with
  | none => none
  | some sk =>
    match getSigningEntity env sk.secretRef.name with
    | .ok e => some e
    | _ => none

/-- Whether the secure-join of the update path succeeds. -/
def secureJoinOk (env : Env) : Bool :=
  match env.secureJoin with
  | .ok _ => true
  | .error _ => false

/-- Whether lstat succeeds on a reported file. -/
def lstatOk (env : Env) (root f : String) : Bool :=
  match env.lstat (joinPath root f) with
  | .ok _ => true
  | .error _ => false

/-- The files staged by a list of actions. -/
def stagedOf (acts : List Action) : List String :=
  acts.filterMap (fun a =>
    match a with
    | .stageFile f => some f
    | _ => none)

/-- The nonempty cleaned lines of a multi-line push-error message. -/
def fragsOf (lines : List String) : List String :=
  (lines.map libgit2CleanLine).filter (fun m => m ≠ "")

/-- Concatenation of fragments, each preceded by one space. -/
def tailJoin : List String → String
  | [] => ""
  | m :: rest => " " ++ m ++ tailJoin rest

/-- Fragments joined by single spaces. -/
def joinFrags : List String → String
  | [] => ""
  | m :: rest => m ++ tailJoin rest

/- Environments exercising the defects. -/

/-- Claim 1 input: no push spec, and the checkout reference carries a tag
but no branch, so the push branch cannot be resolved. -/
def autoTagOnly : Auto :=
  { spec :=
      { sourceRef := { kind := "GitRepository", name := "repo" }
        gitSpec := some { checkout := some { reference := { tag := "v1.0.0" } } }
        update := some { strategy := "Setters" } } }

/-- Claim 1 environment. -/
def envTagOnly : Env := { baseEnv with getAuto := .found autoTagOnly }

/-- Claim 2 input: a previously recorded push commit of three characters. -/
def autoShortLastCommit : Auto :=
  { autoSetters with status := { lastPushCommit := "abc", lastPushTime := some 5 } }

/-- Claim 2 environment: the work tree reports no changes. -/
def envShortLastCommit : Env :=
  { baseEnv with getAuto := .found autoShortLastCommit, worktreeStatus := .ok [] }

/-- Claim 3 input: a signing key whose secret is missing. -/
def autoSigned : Auto :=
  { spec :=
      { sourceRef := { kind := "GitRepository", name := "repo" }
        gitSpec := some
          { gsPushMain with commit := { signingKey := some { secretRef := { name := "gpg" } } } }
        update := some { strategy := "Setters" } } }

/-- Claim 3 environment. -/
def envSigningMissing : Env :=
  { baseEnv with getAuto := .found autoSigned, signingSecret := .notFound }

/-- Claim 4 environment: the armored key ring parses to zero entities. -/
def envZeroEntities : Env := { baseEnv with parseKeyRing := fun _ => .ok [] }

/-- Claim 4 contrast environment: the key ring parses to two entities. -/
def envTwoEntities : Env :=
  { baseEnv with parseKeyRing := fun _ => .ok [{ keyId := 1 }, { keyId := 2 }] }

/-- Claim 5 input: an unknown update strategy. -/
def autoBogusStrategy : Auto :=
  { spec :=
      { sourceRef := { kind := "GitRepository", name := "repo" }
        gitSpec := some gsPushMain
        update := some { strategy := "Bogus" } } }

/-- Claim 5 environment: the status patch in the no-strategy branch fails. -/
def envBogusStrategy : Env :=
  { baseEnv with
    getAuto := .found autoBogusStrategy
    patchResult := fun _ => some (.str "patch failed") }

/-- Claim 5 witness environment: unknown strategy, all patches succeed. -/
def envBogusStrategyOk : Env := { baseEnv with getAuto := .found autoBogusStrategy }

/-- Claim 2 witness environment: the work tree reports no changed files. -/
def envNoChanges : Env := { baseEnv with worktreeStatus := .ok [] }

/-- Claim 6 input: a suspended automation object. -/
def autoSuspended : Auto :=
  { autoSetters with spec := { autoSetters.spec with suspend := true } }

/-- Claim 6 environment. -/
def envSuspended : Env := { baseEnv with getAuto := .found autoSuspended }

/-- Claim 9 environment: the only reported change is a broken symlink. -/
def envBrokenLink : Env :=
  { baseEnv with
    worktreeStatus := .ok ["badlink"]
    lstat := fun _ => .ok { symlink := true }
    stat := fun _ => .notExist }

/-- Claim 10 input: the update field is absent. -/
def autoNoUpdate : Auto :=
  { spec :=
      { sourceRef := { kind := "GitRepository", name := "repo" }
        gitSpec := some gsPushMain } }

/-- Claim 10 environment. -/
def envNoUpdate : Env := { baseEnv with getAuto := .found autoNoUpdate }

/- Claim theorems. -/

/-- C1: the claim fails on the code.  When the push spec is absent and the
checkout reference has no branch, `Reconcile` calls `failWithError` without
returning its result, so the run records the validation failure (the error
event below) and then proceeds anyway: it creates the temporary directory,
resolves auth, clones, and even pushes to the empty branch name, returning
no error — the run does not terminate before git and network operations. -/
theorem claim1_validation_fall_through :
    Action.event eventSeverityError pushBranchErrMsg ∈ (reconcile envTagOnly).traceOf ∧
    Action.tempDirCreate ∈ (reconcile envTagOnly).traceOf ∧
    Action.authResolve ∈ (reconcile envTagOnly).traceOf ∧
    Action.clone ∈ (reconcile envTagOnly).traceOf ∧
    Action.push "" ∈ (reconcile envTagOnly).traceOf ∧
    (reconcile envTagOnly).retErr = none := by decide

/-- C3: the claim fails on the code.  With a signing key whose secret is
missing, `getSigningEntity` returns an error, but `Reconcile` assigns it to
`err` without checking it (the next template step overwrites `err`), so the
run commits and pushes unsigned and ends with no error. -/
theorem claim3_signing_error_ignored :
    getSigningEntity envSigningMissing "gpg" =
      .err (.str "could not find signing key secret gpg") ∧
    (reconcile envSigningMissing).retErr = none ∧
    Action.commit ∈ (reconcile envSigningMissing).traceOf ∧
    Action.push "flux-updates" ∈ (reconcile envSigningMissing).traceOf := by decide

/-- C4: the claim fails on the code.  A key ring that parses successfully to
zero entities passes the `len(entities) > 1` check and reaches
`entities[0]`, which panics on an empty slice instead of producing the
distinct zero-identities error the claim requires; two entities do produce
the distinct multiple-entities error. -/
theorem claim4_zero_identities_panic :
    envZeroEntities.parseKeyRing "ARMORED" = .ok [] ∧
    getSigningEntity envZeroEntities "gpg" = .panicked ∧
    getSigningEntity envTwoEntities "gpg" =
      .err (.str "multiple entities read from secret gpg, could not determine which signing key to use") := by
  decide

/-- C10: the claim fails on the code.  With a nil `update` field the run
clones successfully and then panics at the manifests-path step, which reads
`auto.Spec.Update.Path` before the strategy switch performs its nil check —
the no-strategy terminal state is never reached. -/
theorem claim10_nil_update_panics :
    autoNoUpdate.spec.update = none ∧
    Action.clone ∈ (reconcile envNoUpdate).traceOf ∧
    (reconcile envNoUpdate).isPanic = true := by decide

/-- C2 counterexample: a run in which the commit step reports no changes but
the previously recorded push commit is only three characters long does not
end successfully — the status-message formatting slices `lastCommit[:7]` and
panics. -/
theorem claim2_short_commit_panics :
    (commitChangedManifests envShortLastCommit none "/tmp/wd").2 = .error .noChanges ∧
    autoShortLastCommit.status.lastPushCommit = "abc" ∧
    (reconcile envShortLastCommit).isPanic = true := by decide

/-- C5 counterexample: a run with the unknown strategy "Bogus" takes the
no-strategy branch (readiness False with the no-strategy reason, empty
result) but returns the status patch's error to the caller, not `nil`. -/
theorem claim5_patch_error_returned :
    autoBogusStrategy.spec.update = some { strategy := "Bogus" } ∧
    (reconcile envBogusStrategy).readyOf =
      some { status := false, reason := noStrategyReason,
             message := "no known update strategy is given for object" } ∧
    (reconcile envBogusStrategy).resOf = {} ∧
    (reconcile envBogusStrategy).retErr = some (.str "patch failed") := by decide

/-- C6: a suspended automation object makes `Reconcile` return immediately
with an empty result and no error; the trace is exactly the object fetch
followed by the deferred suspension telemetry — no temp dir, clone, fetch,
commit or push, no event, no status patch — and the in-memory status (hence
the readiness condition) is exactly the fetched object's status. -/
theorem claim6_suspend_neutral (env : Env) (auto : Auto)
    (hget : env.getAuto = .found auto) (hsusp : auto.spec.suspend = true) :
    reconcile env = .ret [.getAutomation, .recordSuspension] {} none auto.status := by
  unfold reconcile
  rw [hget]
  simp [hsusp, exitRet, RunState.finishTrace]

/-- C6 witness: the theorem applied to the concrete suspended object. -/
theorem claim6_suspend_neutral_witness :
    reconcile envSuspended =
      .ret [.getAutomation, .recordSuspension] {} none autoSuspended.status :=
  claim6_suspend_neutral envSuspended autoSuspended (by decide) (by decide)

/-- C7: `gogitPushError` maps a nil error to nil, replaces an error whose
trimmed text is exactly `"unknown error: remote:"` with the fixed
credentials/write-access diagnostic, and returns every other error
unchanged. -/
theorem claim7_gogit_push_error :
    gogitPushError none = none ∧
    (∀ msg, goTrimSpace msg = "unknown error: remote:" →
      gogitPushError (some msg) = some gogitPushDiagnostic) ∧
    (∀ msg, goTrimSpace msg ≠ "unknown error: remote:" →
      gogitPushError (some msg) = some msg) := by
  refine ⟨rfl, ?_, ?_⟩ <;> intro msg h <;> simp [gogitPushError, h]

/-- C7 witness: the theorem applied to an empty-remote-marker error (with
surrounding white space) and to an ordinary error. -/
theorem claim7_gogit_push_error_witness :
    gogitPushError (some " unknown error: remote: ") = some gogitPushDiagnostic ∧
    gogitPushError (some "some other push failure") = some "some other push failure" :=
  ⟨claim7_gogit_push_error.2.1 " unknown error: remote: " (by decide),
   claim7_gogit_push_error.2.2 "some other push failure" (by decide)⟩

/-- Helper: `fragsOf` on a cons keeps the cleaned head iff it is nonempty. -/
theorem fragsOf_cons (l : String) (rest : List String) :
    fragsOf (l :: rest) =
      if libgit2CleanLine l = "" then fragsOf rest
      else libgit2CleanLine l :: fragsOf rest := by
  unfold fragsOf
  by_cases hm : libgit2CleanLine l = "" <;> simp [hm]

/-- Helper: once something has been appended, the builder loop appends every
remaining nonempty fragment preceded by one space. -/
theorem foldl_rebuildStep_true (lines : List String) (acc : String) :
    lines.foldl rebuildStep (acc, true) = (acc ++ tailJoin (fragsOf lines), true) := by
  induction lines generalizing acc with
  | nil => simp [fragsOf, tailJoin]
  | cons l rest ih =>
    rw [List.foldl_cons, fragsOf_cons]
    by_cases hm : libgit2CleanLine l = ""
    · have hstep : rebuildStep (acc, true) l = (acc, true) := by
        simp [rebuildStep, hm]
      rw [hstep, ih, if_pos hm]
    · have hstep : rebuildStep (acc, true) l = (acc ++ " " ++ libgit2CleanLine l, true) := by
        simp [rebuildStep, hm]
      rw [hstep, ih, if_neg hm]
      simp [tailJoin, String.append_assoc]

/-- Helper: from the start state, the builder loop produces the space-joined
nonempty fragments. -/
theorem foldl_rebuildStep_false (lines : List String) (acc : String) :
    (lines.foldl rebuildStep (acc, false)).1 = acc ++ joinFrags (fragsOf lines) := by
  induction lines generalizing acc with
  | nil => simp [joinFrags, fragsOf]
  | cons l rest ih =>
    rw [List.foldl_cons, fragsOf_cons]
    by_cases hm : libgit2CleanLine l = ""
    · have hstep : rebuildStep (acc, false) l = (acc, false) := by
        simp [rebuildStep, hm]
      rw [hstep, ih, if_pos hm]
    · have hstep : rebuildStep (acc, false) l = (acc ++ "" ++ libgit2CleanLine l, true) := by
        simp [rebuildStep, hm]
      rw [hstep, foldl_rebuildStep_true, if_neg hm]
      simp [joinFrags, String.append_assoc]

/-- Helper: the rebuilt message is one `"remote: "` marker followed by the
nonempty cleaned lines joined with single spaces. -/
theorem libgit2Rebuild_eq (lines : List String) :
    libgit2Rebuild lines = "remote: " ++ joinFrags (fragsOf lines) := by
  unfold libgit2Rebuild
  rw [foldl_rebuildStep_false]

/-- C8: `libgit2PushError` returns a nil or single-line error unchanged, and
rebuilds a multi-line error message by cleaning each line (stripping the
`"remote:"` marker and surrounding white space and `=` fencing), dropping
lines that become empty, and joining the rest with single spaces under one
leading `"remote: "` marker. -/
theorem claim8_libgit2_push_error :
    libgit2PushError none = none ∧
    (∀ msg, (splitLines msg).length = 1 → libgit2PushError (some msg) = some msg) ∧
    (∀ msg, (splitLines msg).length ≠ 1 →
      libgit2PushError (some msg) =
        some ("remote: " ++ joinFrags (fragsOf (splitLines msg)))) := by
  refine ⟨rfl, ?_, ?_⟩ <;> intro msg h <;> simp [libgit2PushError, h, libgit2Rebuild_eq]

/-- C8 witness: the theorem applied to a banner-polluted multi-line message
(which rebuilds to `"remote: access denied"`) and to a single-line one. -/
theorem claim8_libgit2_push_error_witness :
    libgit2PushError (some "remote:\nremote: =====\nremote: access denied\nremote:") =
      some ("remote: " ++ joinFrags (fragsOf
        (splitLines "remote:\nremote: =====\nremote: access denied\nremote:"))) ∧
    "remote: " ++ joinFrags (fragsOf
        (splitLines "remote:\nremote: =====\nremote: access denied\nremote:")) =
      "remote: access denied" ∧
    libgit2PushError (some "fatal: repository not found") =
      some "fatal: repository not found" :=
  ⟨claim8_libgit2_push_error.2.2 _ (by decide), by decide,
   claim8_libgit2_push_error.2.1 "fatal: repository not found" (by decide)⟩

/-- Helper: a successful `lstatOk` yields the file info. -/
theorem lstatOk_exists (env : Env) (root f : String) (h : lstatOk env root f = true) :
    ∃ i, env.lstat (joinPath root f) = .ok i := by
  unfold lstatOk at h
  cases hl : env.lstat (joinPath root f) with
  | ok i => exact ⟨i, rfl⟩
  | error e => rw [hl] at h; cases h

/-- Helper: when every lstat succeeds, the staging loop stages exactly the
non-broken files (in order), the changed flag is their existence, and no
error occurs. -/
theorem stageLoop_spec (env : Env) (root : String) (files : List String)
    (hl : ∀ f ∈ files, lstatOk env root f = true) :
    stageLoop env root files =
      ((files.filter (fun f => !brokenSymlink env root f)).map Action.stageFile,
       files.any (fun f => !brokenSymlink env root f),
       none) := by
  induction files with
  | nil => simp [stageLoop]
  | cons f rest ih =>
    have hrest : ∀ g ∈ rest, lstatOk env root g = true :=
      fun g hg => hl g (List.mem_cons_of_mem _ hg)
    obtain ⟨i, hi⟩ := lstatOk_exists env root f (hl f (List.mem_cons_self _ _))
    have hbroken : brokenSymlink env root f =
        (i.symlink && decide (env.stat (joinPath root f) = .notExist)) := by
      unfold brokenSymlink
      rw [hi]
    unfold stageLoop
    rw [hi, ih hrest]
    by_cases hb : i.symlink = true ∧ env.stat (joinPath root f) = .notExist
    · have hbt : brokenSymlink env root f = true := by
        rw [hbroken, hb.1, decide_eq_true hb.2]
        rfl
      simp [hb, hbt]
    · have hbf : brokenSymlink env root f = false := by
        rw [hbroken]
        rcases Decidable.not_and_iff_or_not.mp hb with h | h
        · simp [Bool.eq_false_iff.mpr h]
        · simp [decide_eq_false h]
      have hcond : ¬ (i.symlink ∧ env.stat (joinPath root f) = .notExist) := by
        intro hc
        exact hb ⟨hc.1, hc.2⟩
      simp [hcond, hbf]

/-- Helper: projecting staged files out of pure staging actions. -/
theorem stagedOf_map (l : List String) : stagedOf (l.map Action.stageFile) = l := by
  unfold stagedOf
  induction l with
  | nil => rfl
  | cons f rest ih => simpa using ih

/-- C9: when every lstat succeeds, `commitChangedManifests` stages exactly
the reported files that are not broken symlinks; and when every reported
file is a broken symlink it performs no action at all (no staging, no
commit) and returns the distinguished no-changes outcome. -/
theorem claim9_broken_symlinks_skipped (env : Env) (ent : Option Entity) (root : String)
    (files : List String)
    (hw : env.worktree = .ok ()) (hs : env.worktreeStatus = .ok files)
    (hl : ∀ f ∈ files, lstatOk env root f = true) :
    stagedOf (commitChangedManifests env ent root).1 =
      files.filter (fun f => !brokenSymlink env root f) ∧
    (files.all (fun f => brokenSymlink env root f) = true →
      (commitChangedManifests env ent root).1 = [] ∧
      (commitChangedManifests env ent root).2 = .error .noChanges) := by
  unfold commitChangedManifests
  rw [hw, hs]
  dsimp only
  rw [stageLoop_spec env root files hl]
  by_cases hany : files.any (fun f => !brokenSymlink env root f) = true
  · have hfilterNe : ∃ g ∈ files, (!brokenSymlink env root g) = true := by
      simpa using List.any_eq_true.mp hany
    constructor
    · cases hc : env.commitResult <;>
        simp [hany, stagedOf, List.filterMap_append] <;>
        simpa [stagedOf] using stagedOf_map (files.filter (fun f => !brokenSymlink env root f))
    · intro hall
      obtain ⟨g, hg, hng⟩ := hfilterNe
      have := List.all_eq_true.mp hall g hg
      simp [this] at hng
  · have hanyf : files.any (fun f => !brokenSymlink env root f) = false :=
      Bool.eq_false_iff.mpr hany
    have hfilter : files.filter (fun f => !brokenSymlink env root f) = [] := by
      rw [List.filter_eq_nil_iff]
      intro g hg
      intro hng
      exact hany (List.any_eq_true.mpr ⟨g, hg, hng⟩)
    simp [hanyf, hfilter, stagedOf]

/-- Helper: entry of a run that is present, not suspended, has metrics and a
resolvable object reference, and carries no reconcile-request annotation. -/
theorem reconcile_entry (env : Env) (auto : Auto)
    (hget : env.getAuto = .found auto) (hsusp : auto.spec.suspend = false)
    (hm : env.metricsEnabled = true) (hr : env.getReferenceOk = true)
    (htok : auto.annotationToken = none) :
    reconcile env = reconcileMain env auto
      { trace := [.getAutomation],
        defers := [.recordDuration, .recordReadiness, .recordSuspension],
        status := auto.status, pc := 0 } := by
  unfold reconcile
  rw [hget]
  simp [hsusp, hm, hr, htok, RunState.pushDefer]

/-- Helper: a supported source kind with a git spec and an existing origin
proceeds to push-branch resolution. -/
theorem main_to_withOrigin (env : Env) (auto : Auto) (gs : GitSpec) (origin : GitRepository)
    (st : RunState)
    (hkind : auto.spec.sourceRef.kind = "GitRepository")
    (hgs : auto.spec.gitSpec = some gs)
    (ho : env.getOrigin = .found origin) :
    reconcileMain env auto st = reconcileWithOrigin env auto gs origin st := by
  unfold reconcileMain
  rw [hgs, ho]
  simp [hkind]

/-- Helper: a resolvable push branch proceeds to the clone phase with it. -/
theorem withOrigin_to_clone (env : Env) (auto : Auto) (gs : GitSpec) (origin : GitRepository)
    (st : RunState) (b : String)
    (hres : resolvedPushBranch gs origin = some b) :
    reconcileWithOrigin env auto gs origin st = reconcileClonePhase env auto gs b st := by
  unfold reconcileWithOrigin
  unfold resolvedPushBranch at hres
  cases hp : gs.push with
  | some p =>
    rw [hp] at hres
    dsimp only at hres ⊢
    simp only [Option.some.injEq] at hres
    rw [hres]
  | none =>
    rw [hp] at hres
    dsimp only at hres ⊢
    cases hr : refOf gs origin with
    | none => rw [hr] at hres; cases hres
    | some r =>
      rw [hr] at hres
      dsimp only at hres ⊢
      by_cases hb : r.branch = ""
      · rw [if_pos hb] at hres; cases hres
      · rw [if_neg hb] at hres
        simp only [Option.some.injEq] at hres
        rw [hres] at hb ⊢
        simp [hb]

/-- Helper: a successful clone phase (temp dir, auth, clone, and — with a
push spec — fetch tolerating only branch-missing, plus branch switch)
appends exactly `cloneActs` and defers the temp-dir removal. -/
theorem clone_to_update (env : Env) (auto : Auto) (gs : GitSpec) (b : String) (st : RunState)
    (tmp : String)
    (ht : env.tempDir = .ok tmp) (ha : env.repoAccess = .ok ()) (hc : env.clone = .ok ())
    (hf : env.fetchResult = none ∨ env.fetchResult = some .remoteBranchMissing)
    (hsw : env.switchBranch = .ok ()) :
    reconcileClonePhase env auto gs b st =
      reconcileUpdatePhase env auto gs b tmp
        { trace := st.trace ++ cloneActs gs b,
          defers := .removeAllTemp :: st.defers,
          status := st.status, pc := st.pc } := by
  unfold reconcileClonePhase
  rw [ht, ha, hc]
  cases hp : gs.push with
  | none =>
    simp [RunState.act, RunState.pushDefer, cloneActs, hp]
  | some p =>
    rcases hf with hf | hf <;>
      rw [hf] <;>
      simp [RunState.act, RunState.pushDefer, cloneActs, hp, hsw]

/-- Helper: an update spec whose strategy is not the setters value takes the
no-strategy terminal branch — readiness False with the no-strategy reason,
an empty result, and the status patch's error as returned error. -/
theorem update_no_strategy (env : Env) (auto : Auto) (gs : GitSpec) (b tmp : String)
    (st : RunState) (upd : UpdateStrategy)
    (hu : auto.spec.update = some upd)
    (hpath : upd.path ≠ "" → secureJoinOk env = true)
    (hstrat : upd.strategy ≠ updateStrategySetters)
    (hpatch : env.patchResult st.pc = none) :
    reconcileUpdatePhase env auto gs b tmp st =
      .ret (st.trace ++
            [.event eventSeverityInfo "no known update strategy in spec, failing trivially",
             .patchStatus] ++ st.defers)
        {} none
        { st.status with ready := some ⟨false, noStrategyReason,
            "no known update strategy is given for object"⟩ } := by
  unfold reconcileUpdatePhase
  rw [hu]
  dsimp only
  by_cases hp : upd.path = ""
  · simp [hp, hstrat, doPatch, hpatch, exitRet, RunState.finishTrace, RunState.act,
      RunState.setStatus]
  · have hsj := hpath hp
    unfold secureJoinOk at hsj
    cases hj : env.secureJoin with
    | error e => rw [hj] at hsj; cases hsj
    | ok q =>
      simp [hp, hstrat, doPatch, hpatch, exitRet, RunState.finishTrace, RunState.act,
        RunState.setStatus]

/-- Helper: the setters strategy with successful policy listing and update
application proceeds to the commit phase. -/
theorem update_to_commit (env : Env) (auto : Auto) (gs : GitSpec) (b tmp : String)
    (st : RunState) (upd : UpdateStrategy)
    (hu : auto.spec.update = some upd)
    (hpath : upd.path ≠ "" → secureJoinOk env = true)
    (hstrat : upd.strategy = updateStrategySetters)
    (hlist : env.listPolicies = .ok ()) (hupd : env.updateResult = .ok ()) :
    reconcileUpdatePhase env auto gs b tmp st =
      reconcileCommitPhase env auto gs b tmp (st.acts [.listPolicies, .applyUpdates]) := by
  unfold reconcileUpdatePhase
  rw [hu]
  dsimp only
  by_cases hp : upd.path = ""
  · rw [if_neg (by simpa using hp)]
    rw [hstrat]
    simp [hlist, hupd, RunState.act, RunState.acts]
  · have hsj := hpath hp
    unfold secureJoinOk at hsj
    cases hj : env.secureJoin with
    | error e => rw [hj] at hsj; cases hsj
    | ok q =>
      rw [if_pos (by simpa using hp)]
      dsimp only
      rw [hstrat]
      simp [hlist, hupd, RunState.act, RunState.acts]

/-- Helper: a signing phase that cannot panic hands some entity (possibly
none — a resolution error is ignored by the code) to the rest of the
commit phase. -/
theorem commit_entry (env : Env) (auto : Auto) (gs : GitSpec) (b tmp : String)
    (st : RunState)
    (hsig : signingSafe env gs = true) :
    reconcileCommitPhase env auto gs b tmp st =
      reconcileCommitPhase2 env auto b tmp (signingEntityOf env gs) (st.acts (sigActs gs)) := by
  unfold reconcileCommitPhase
  unfold signingSafe at hsig
  unfold signingEntityOf
  cases hk : gs.commit.signingKey with
  | none =>
    simp [sigActs, hk, RunState.acts]
  | some sk =>
    rw [hk] at hsig
    dsimp only at hsig ⊢
    cases hg : getSigningEntity env sk.secretRef.name with
    | panicked => simp [hg] at hsig
    | err e =>
      simp [sigActs, hk, hg, RunState.act, RunState.acts]
    | ok e =>
      simp [sigActs, hk, hg, RunState.act, RunState.acts]

/-- Helper: when the commit step reports no changes and the no-updates
status message is formattable, the run emits the informational event, leaves
the last-push fields untouched, sets readiness True and requeues after the
interval (provided the final status patch succeeds). -/
theorem commit2_noChanges (env : Env) (auto : Auto) (b tmp : String) (ent : Option Entity)
    (st : RunState) (msg : String)
    (hp : env.templateParse = .ok ()) (he : env.templateExec = .ok ())
    (hcm : (commitChangedManifests env ent tmp).2 = .error .noChanges)
    (hmsg : noUpdatesMessage st.status = some msg)
    (hpatch : env.patchResult st.pc = none) :
    reconcileCommitPhase2 env auto b tmp ent st =
      .ret (st.trace ++ (commitChangedManifests env ent tmp).1 ++
            [.event eventSeverityInfo "no updates made", .patchStatus] ++ st.defers)
        { requeueAfter := intervalOrDefault auto } none
        { st.status with
            lastAutomationRunTime := some env.now
            ready := some ⟨true, reconciliationSucceededReason, msg⟩ } := by
  unfold reconcileCommitPhase2
  rw [hp, he]
  dsimp only
  rw [hcm]
  dsimp only
  have hmsg2 : noUpdatesMessage
      (((st.acts (commitChangedManifests env ent tmp).1).act
        (.event eventSeverityInfo "no updates made")).status) = some msg := by
    simpa [RunState.acts, RunState.act] using hmsg
  rw [hmsg2]
  unfold reconcileCommitPhase2.finalize
  simp [doPatch, hpatch, exitRet, RunState.finishTrace, RunState.acts, RunState.act,
    RunState.setStatus, List.append_assoc]

/-- Helper: the staging loop emits staging actions only. -/
theorem stageLoop_acts_stage (env : Env) (root : String) (files : List String) :
    ∀ a ∈ (stageLoop env root files).1, ∃ f, a = Action.stageFile f := by
  induction files with
  | nil => intro a ha; cases ha
  | cons f rest ih =>
    intro a ha
    unfold stageLoop at ha
    cases hl : env.lstat (joinPath root f) with
    | error e => rw [hl] at ha; cases ha
    | ok i =>
      rw [hl] at ha
      dsimp only at ha
      by_cases hb : (i.symlink ∧ env.stat (joinPath root f) = .notExist)
      · rw [if_pos hb] at ha
        exact ih a ha
      · rw [if_neg hb] at ha
        dsimp only at ha
        rcases List.mem_cons.mp ha with h | h
        · exact ⟨f, h⟩
        · exact ih a h

/-- Helper: `commitChangedManifests` emits only staging and commit actions
(in particular, never a push). -/
theorem commitActs_shape (env : Env) (ent : Option Entity) (tmp : String) :
    ∀ a ∈ (commitChangedManifests env ent tmp).1,
      a = Action.commit ∨ ∃ f, a = Action.stageFile f := by
  intro a ha
  unfold commitChangedManifests at ha
  cases hw : env.worktree with
  | error e => rw [hw] at ha; cases ha
  | ok u =>
    rw [hw] at ha
    cases hs : env.worktreeStatus with
    | error e => rw [hs] at ha; cases ha
    | ok files =>
      rw [hs] at ha
      dsimp only at ha
      cases hse : (stageLoop env tmp files).2.2 with
      | some e =>
        rw [hse] at ha
        exact Or.inr (stageLoop_acts_stage env tmp files a ha)
      | none =>
        rw [hse] at ha
        by_cases hch : (stageLoop env tmp files).2.1 = true
        · rw [if_neg (by simp [hch])] at ha
          cases hc : env.commitResult with
          | error e =>
            rw [hc] at ha
            rcases List.mem_append.mp ha with h | h
            · exact Or.inr (stageLoop_acts_stage env tmp files a h)
            · rcases List.mem_singleton.mp h with rfl
              exact Or.inl rfl
          | ok rev =>
            rw [hc] at ha
            rcases List.mem_append.mp ha with h | h
            · exact Or.inr (stageLoop_acts_stage env tmp files a h)
            · rcases List.mem_singleton.mp h with rfl
              exact Or.inl rfl
        · rw [if_pos (by simpa using hch)] at ha
          exact Or.inr (stageLoop_acts_stage env tmp files a ha)

/-- C9 witness: the theorem applied to a work tree whose only reported
change is a broken symlink — nothing is staged and the outcome is the
no-changes error. -/
theorem claim9_broken_symlinks_skipped_witness :
    stagedOf (commitChangedManifests envBrokenLink none "/tmp/wd").1 =
      (["badlink"].filter (fun f => !brokenSymlink envBrokenLink "/tmp/wd" f)) ∧
    ((["badlink"].all (fun f => brokenSymlink envBrokenLink "/tmp/wd" f)) = true →
      (commitChangedManifests envBrokenLink none "/tmp/wd").1 = [] ∧
      (commitChangedManifests envBrokenLink none "/tmp/wd").2 = .error .noChanges) :=
  claim9_broken_symlinks_skipped envBrokenLink none "/tmp/wd" ["badlink"]
    (by decide) (by decide) (by decide)

/-- C5, amended: for every run that reaches the strategy dispatch (the happy
path up to and including a successful clone phase) with an update spec
present whose strategy is not the supported setters value, and whose status
patch succeeds, the run terminates with readiness False under the
no-strategy reason, requests no requeue (empty result), and returns no error
to the caller.  (As stated, the claim fails: the code returns the status
patch's error, and a missing update spec panics before the dispatch.) -/
theorem claim5_no_strategy_terminal (env : Env) (auto : Auto) (gs : GitSpec)
    (origin : GitRepository) (b tmp : String) (upd : UpdateStrategy)
    (h1 : env.getAuto = .found auto) (h2 : auto.spec.suspend = false)
    (h3 : env.metricsEnabled = true) (h4 : env.getReferenceOk = true)
    (h5 : auto.annotationToken = none)
    (h6 : auto.spec.sourceRef.kind = "GitRepository")
    (h7 : auto.spec.gitSpec = some gs)
    (h8 : env.getOrigin = .found origin)
    (h9 : resolvedPushBranch gs origin = some b)
    (h10 : env.tempDir = .ok tmp) (h11 : env.repoAccess = .ok ()) (h12 : env.clone = .ok ())
    (h13 : env.fetchResult = none ∨ env.fetchResult = some .remoteBranchMissing)
    (h14 : env.switchBranch = .ok ())
    (h15 : auto.spec.update = some upd)
    (h16 : upd.path ≠ "" → secureJoinOk env = true)
    (h17 : upd.strategy ≠ updateStrategySetters)
    (h18 : env.patchResult 0 = none) :
    ∃ tr, reconcile env = .ret tr {} none
      { auto.status with ready := some ⟨false, noStrategyReason,
          "no known update strategy is given for object"⟩ } := by
  rw [reconcile_entry env auto h1 h2 h3 h4 h5,
      main_to_withOrigin env auto gs origin _ h6 h7 h8,
      withOrigin_to_clone env auto gs origin _ b h9,
      clone_to_update env auto gs b _ tmp h10 h11 h12 h13 h14,
      update_no_strategy env auto gs b tmp _ upd h15 h16 h17 h18]
  exact ⟨_, rfl⟩

/-- C5 witness: the amended theorem applied to a run whose strategy is
"Bogus" and whose status patches succeed. -/
theorem claim5_no_strategy_terminal_witness :
    ∃ tr, reconcile envBogusStrategyOk = .ret tr {} none
      { autoBogusStrategy.status with ready := some ⟨false, noStrategyReason,
          "no known update strategy is given for object"⟩ } :=
  claim5_no_strategy_terminal envBogusStrategyOk autoBogusStrategy gsPushMain
    { spec := { url := "https://example.com/repo.git" } } "flux-updates" "/tmp/wd"
    { strategy := "Bogus" }
    (by decide) (by decide) (by decide) (by decide) (by decide) (by decide) (by decide)
    (by decide) (by decide) (by decide) (by decide) (by decide) (by decide) (by decide)
    (by decide) (by decide) (by decide) (by decide)

/-- C2, amended: for every run that reaches the commit step (happy path
through clone, setters update, a non-panicking signing phase and template
handling) in which `commitChangedManifests` returns the `errNoChanges`
outcome, provided the prior status's no-updates message is formattable (no
recorded commit, or a ≥7-character commit with a recorded time) and the
final status patch succeeds: push is never invoked, the LastPushCommit and
LastPushTime fields are unchanged (the final status only updates the run
time and readiness), and the run ends successfully — no error, readiness
True, and a requeue after the interval — with the informational "no updates
made" message (appending the last pushed commit and time when recorded).
As universally stated the claim fails: a recorded commit shorter than seven
characters makes the message formatting panic. -/
theorem claim2_no_changes_no_push (env : Env) (auto : Auto) (gs : GitSpec)
    (origin : GitRepository) (b tmp msg : String) (upd : UpdateStrategy)
    (h1 : env.getAuto = .found auto) (h2 : auto.spec.suspend = false)
    (h3 : env.metricsEnabled = true) (h4 : env.getReferenceOk = true)
    (h5 : auto.annotationToken = none)
    (h6 : auto.spec.sourceRef.kind = "GitRepository")
    (h7 : auto.spec.gitSpec = some gs)
    (h8 : env.getOrigin = .found origin)
    (h9 : resolvedPushBranch gs origin = some b)
    (h10 : env.tempDir = .ok tmp) (h11 : env.repoAccess = .ok ()) (h12 : env.clone = .ok ())
    (h13 : env.fetchResult = none ∨ env.fetchResult = some .remoteBranchMissing)
    (h14 : env.switchBranch = .ok ())
    (h15 : auto.spec.update = some upd)
    (h16 : upd.path ≠ "" → secureJoinOk env = true)
    (h17 : upd.strategy = updateStrategySetters)
    (h18 : env.listPolicies = .ok ()) (h19 : env.updateResult = .ok ())
    (h20 : signingSafe env gs = true)
    (h21 : env.templateParse = .ok ()) (h22 : env.templateExec = .ok ())
    (h23 : (commitChangedManifests env none tmp).2 = .error .noChanges)
    (h24 : noUpdatesMessage auto.status = some msg)
    (h25 : env.patchResult 0 = none) :
    ∃ tr, reconcile env = .ret tr { requeueAfter := intervalOrDefault auto } none
      { auto.status with
          lastAutomationRunTime := some env.now
          ready := some ⟨true, reconciliationSucceededReason, msg⟩ } ∧
      ∀ b2, Action.push b2 ∉ tr := by
  have hcm2 : (commitChangedManifests env (signingEntityOf env gs) tmp).2 =
      .error .noChanges := h23
  have step : reconcile env =
      reconcileCommitPhase2 env auto b tmp (signingEntityOf env gs)
        { trace := (([Action.getAutomation] ++ cloneActs gs b) ++
              [Action.listPolicies, Action.applyUpdates]) ++ sigActs gs,
          defers := [.removeAllTemp, .recordDuration, .recordReadiness, .recordSuspension],
          status := auto.status, pc := 0 } := by
    rw [reconcile_entry env auto h1 h2 h3 h4 h5,
        main_to_withOrigin env auto gs origin _ h6 h7 h8,
        withOrigin_to_clone env auto gs origin _ b h9,
        clone_to_update env auto gs b _ tmp h10 h11 h12 h13 h14,
        update_to_commit env auto gs b tmp _ upd h15 h16 h17 h18 h19,
        commit_entry env auto gs b tmp _ h20]
    rfl
  rw [step,
      commit2_noChanges env auto b tmp (signingEntityOf env gs) _ msg h21 h22 hcm2 h24 h25]
  refine ⟨_, rfl, ?_⟩
  intro b2 hmem
  rcases hgp : gs.push with _ | p <;> rcases hsk : gs.commit.signingKey with _ | sk <;>
    simp [cloneActs, sigActs, hgp, hsk] at hmem <;>
    rcases commitActs_shape env (signingEntityOf env gs) tmp _ hmem with h | ⟨f, h⟩ <;>
    simp at h

/-- C2 witness: the amended theorem applied to a run whose work tree reports
no changed files and whose status has no previously recorded push. -/
theorem claim2_no_changes_no_push_witness :
    ∃ tr, reconcile envNoChanges =
      .ret tr { requeueAfter := intervalOrDefault autoSetters } none
        { autoSetters.status with
            lastAutomationRunTime := some envNoChanges.now
            ready := some ⟨true, reconciliationSucceededReason, "no updates made"⟩ } ∧
      ∀ b2, Action.push b2 ∉ tr :=
  claim2_no_changes_no_push envNoChanges autoSetters gsPushMain
    { spec := { url := "https://example.com/repo.git" } } "flux-updates" "/tmp/wd"
    "no updates made" { strategy := "Setters" }
    (by decide) (by decide) (by decide) (by decide) (by decide) (by decide) (by decide)
    (by decide) (by decide) (by decide) (by decide) (by decide) (by decide) (by decide)
    (by decide) (by decide) (by decide) (by decide) (by decide) (by decide) (by decide)
    (by decide) (by decide) (by decide) (by decide)

end ImageAutomation
